import Mathlib

/-!
Shallow embedding of the bank-assistant backend (server/app), covering:

* the call-grammar parser and value coercion of
  `app/services/llm_services/llm_client.py`
  (`_coerce_value`, `_parse_func_call`, `_extract_func_calls`, `respond`),
* the tool-argument allow-list filter of
  `app/services/mcp_services/tool_arguments.py` (`tools_params`,
  `filter_tool_args`),
* the money-transfer engine and read-only query tools of
  `app/services/mcp_services/personal_services.py` (`transfer_money`,
  direction labelling, period sums), over the data model of
  `app/db/models.py`.

Modelling conventions: fixed-point `Numeric(18,2)` money is carried as
integer cents (`Int`); `decimal.Decimal` inputs are `Option ℚ` (`none` is a
string `Decimal()` rejects); timestamps are rational seconds (UTC), so that
sub-second instants are representable; `json.loads` (Python stdlib, not part
of this repository) is an oracle parameter `String → Option Value`; the
Python regexes are translated operationally, including lazy/greedy
backtracking order; localized user messages produced through `_t` are
carried as a structured message key type `Msg`.
-/

namespace BankAssistant

/-- Python whitespace (the characters `str.strip`/`str.split` and the regex
class for spaces treat as whitespace, in the ASCII range). -/
def isPySpace (c : Char) : Bool :=
  c == ' ' || c == '\t' || c == '\n' || c == '\r' || c == '\x0b' || c == '\x0c'

/-- The regex word-character class (ASCII): letters, digits, underscore. -/
def isWordChar (c : Char) : Bool :=
  c.isAlpha || c.isDigit || c == '_'

/-- `str.strip()` on a character list. -/
def pyStripList (cs : List Char) : List Char :=
  ((cs.dropWhile isPySpace).reverse.dropWhile isPySpace).reverse

/-- Python `str.strip()`. -/
def pyStrip (s : String) : String := ⟨pyStripList s.data⟩

/-- Python `str.lower()` (ASCII case fold, which covers the repository's
tool names and latin display names). -/
def pyLower (s : String) : String := ⟨s.data.map Char.toLower⟩

/-- `str.split()` with no argument: split on whitespace runs, no empty
pieces. -/
def pySplitListAux : List Char → List Char → List (List Char)
  | [], acc => if acc.isEmpty then [] else [acc.reverse]
  | c :: rest, acc =>
    if isPySpace c then
      if acc.isEmpty then pySplitListAux rest [] else acc.reverse :: pySplitListAux rest []
    else pySplitListAux rest (c :: acc)

/-- Python `str.split()` (whitespace runs). -/
def pySplit (s : String) : List String :=
  (pySplitListAux s.data []).map (fun w => ⟨w⟩)

/-- Values produced by `_coerce_value`: Python bool / None / int / float /
str.  Python floats from decimal literals are carried exactly as rationals
(the claims only involve decimally-representable values); structured data
from `json.loads` is whatever the JSON oracle returns. -/
inductive Value where
  | bool (b : Bool)
  | null
  | int (z : Int)
  | float (q : ℚ)
  | str (s : String)
  deriving DecidableEq, Repr

/-- Nonempty all-digits run, the `\d+` of the numeric literal regexes. -/
def digitsNonempty (cs : List Char) : Bool :=
  !cs.isEmpty && cs.all Char.isDigit

/-- `re.fullmatch` of the signed-integer pattern (optional sign, digits). -/
def isIntLit (cs : List Char) : Bool :=
  match cs with
  | '+' :: rest => digitsNonempty rest
  | '-' :: rest => digitsNonempty rest
  | _ => digitsNonempty cs

/-- `re.fullmatch` of the signed-decimal pattern (optional sign, digits,
dot, digits). -/
def isFloatLit (cs : List Char) : Bool :=
  let body := match cs with
    | '+' :: rest => rest
    | '-' :: rest => rest
    | other => other
  let intPart := body.takeWhile Char.isDigit
  let rest := body.dropWhile Char.isDigit
  !intPart.isEmpty &&
    (match rest with
     | '.' :: frac => digitsNonempty frac
     | _ => false)

/-- Decimal digit run to a natural number. -/
def digitsToNat (cs : List Char) : Nat :=
  cs.foldl (fun n c => 10 * n + (c.toNat - 48)) 0

/-- `int(s)` on a string the integer regex accepted. -/
def parseIntLit (cs : List Char) : Int :=
  match cs with
  | '+' :: rest => (digitsToNat rest : Int)
  | '-' :: rest => -(digitsToNat rest : Int)
  | _ => (digitsToNat cs : Int)

/-- `float(s)` on a string the decimal regex accepted, read exactly as a
rational. -/
def parseFloatLit (cs : List Char) : ℚ :=
  let signNeg := match cs with
    | '-' :: _ => true
    | _ => false
  let body := match cs with
    | '+' :: rest => rest
    | '-' :: rest => rest
    | other => other
  let intPart := body.takeWhile Char.isDigit
  let rest := body.dropWhile Char.isDigit
  let frac := match rest with
    | '.' :: f => f
    | _ => []
  let mag : ℚ :=
    mkRat ((digitsToNat intPart * 10 ^ frac.length + digitsToNat frac : Nat) : Int)
      (10 ^ frac.length)
  if signNeg then -mag else mag

/-- Is the list wrapped in the given first/last character pair (length at
least 2, as `startswith`/`endswith` on a list of length 1 cannot both hold
for distinct ends)? -/
def isWrapped (cs : List Char) (l r : Char) : Bool :=
  match cs with
  | [] => false
  | c :: rest =>
    c == l && (match rest.getLast? with
               | some d => d == r
               | none => false)

/-- `_coerce_value` of `llm_client.py`: strip, then try bool, null, signed
int, signed float, JSON-delimited (via the `json.loads` oracle, falling
back to the string), else the stripped string. -/
def _coerce_value (jsonP : String → Option Value) (v : String) : Value :=
  let s := pyStrip v
  let low := pyLower s
  if low = ⟨['t', 'r', 'u', 'e']⟩ then .bool true
  else if low = ⟨['f', 'a', 'l', 's', 'e']⟩ then .bool false
  else if low = ⟨['n', 'u', 'l', 'l']⟩ ∨ low = ⟨['n', 'o', 'n', 'e']⟩ then .null
  else if isIntLit s.data then .int (parseIntLit s.data)
  else if isFloatLit s.data then .float (parseFloatLit s.data)
  else if isWrapped s.data '{' '}' || isWrapped s.data '[' ']' then
    (jsonP s).getD (.str s)
  else .str s

/-- The outer-quote stripping `_parse_func_call` applies to a captured value
before coercion: one layer of matching double or single quotes. -/
def stripOuterQuotes (cs : List Char) : List Char :=
  if isWrapped cs '"' '"' || isWrapped cs '\'' '\'' then (cs.drop 1).dropLast
  else cs

/-- The lookahead of the argument regex: a comma, optional whitespace, a
nonempty word-character run, an equals sign — or end of input (Python
end-anchor also matches just before one trailing newline). -/
def argLookahead (cs : List Char) : Bool :=
  match cs with
  | [] => true
  | ['\n'] => true
  | ',' :: r1 =>
    let r2 := r1.dropWhile isPySpace
    let k := r2.takeWhile isWordChar
    !k.isEmpty &&
      (match r2.drop k.length with
       | '=' :: _ => true
       | _ => false)
  | _ => false

/-- Greedy trailing-whitespace consumption before the lookahead: try the
longest whitespace run first, backing off one character at a time; return
the rest of the input at the first position where the lookahead holds. -/
def trailingWsThenLookahead (rem : List Char) : Option (List Char) :=
  let wmax := (rem.takeWhile isPySpace).length
  (List.range (wmax + 1)).reverse.findSome? fun t =>
    let rest := rem.drop t
    if argLookahead rest then some rest else none

/-- Lazy value extension: `acc` holds the (reversed, nonempty) value matched
so far; first try to close the match (trailing whitespace plus lookahead),
otherwise extend the value by one more non-newline character.  Returns the
value and the rest of the input after the match.  The fuel bounds the
extension by the remaining input length. -/
def lazyValueAux (fuel : Nat) (acc rem : List Char) : Option (List Char × List Char) :=
  match trailingWsThenLookahead rem with
  | some rest => some (acc.reverse, rest)
  | none =>
    match fuel, rem with
    | f + 1, c :: rest2 => if c == '\n' then none else lazyValueAux f (c :: acc) rest2
    | _, _ => none

/-- The value part after the equals sign: greedy leading whitespace (longest
first, backing off), then the lazy nonempty value. -/
def findValueAfterEq (r : List Char) : Option (List Char × List Char) :=
  let wmax := (r.takeWhile isPySpace).length
  (List.range (wmax + 1)).reverse.findSome? fun w =>
    match r.drop w with
    | [] => none
    | c :: rest => if c == '\n' then none else lazyValueAux rest.length [c] rest

/-- One attempt of the argument regex at the current position: optional
whitespace, nonempty key of word characters, optional whitespace, equals
sign, then the value.  Returns ((key, value), rest-after-match). -/
def matchArgAt (cs : List Char) : Option ((List Char × List Char) × List Char) :=
  let cs1 := cs.dropWhile isPySpace
  let key := cs1.takeWhile isWordChar
  if key.isEmpty then none
  else
    match (cs1.drop key.length).dropWhile isPySpace with
    | '=' :: r =>
      match findValueAfterEq r with
      | some (v, rest) => some ((key, v), rest)
      | none => none
    | _ => none

/-- `re.finditer` scan of the argument regex: attempt a match at the current
position; on success continue after the match, on failure advance one
character.  Fuel bounds the scan by the input length. -/
def findArgsAux (fuel : Nat) (cs : List Char) : List (List Char × List Char) :=
  match fuel with
  | 0 => []
  | f + 1 =>
    match matchArgAt cs with
    | some (kv, rest) => kv :: findArgsAux f rest
    | none =>
      match cs with
      | [] => []
      | _ :: rest => findArgsAux f rest

/-- All key/value captures of the argument regex over an argument string. -/
def findArgs (cs : List Char) : List (List Char × List Char) :=
  findArgsAux (cs.length + 1) cs

/-- Key membership in an insertion-ordered association list
(`k in kwargs`). -/
def hasKey (m : List (String × Value)) (k : String) : Bool :=
  m.any (fun kv => kv.1 == k)

/-- Python dict assignment on an insertion-ordered association list: replace
the value in place if the key exists, else append. -/
def pyDictInsert (m : List (String × Value)) (k : String) (v : Value) :
    List (String × Value) :=
  if hasKey m k then
    m.map (fun kv => if kv.1 == k then (k, v) else kv)
  else m ++ [(k, v)]

/-- The anchored head regex of `_parse_func_call`: the input must start with
the literal characters of a name-equals header; the tool name is the
nonempty greedy run of non-comma characters; the optional remainder is a
comma followed by optional whitespace and the argument string. -/
def splitNameArgs (cs : List Char) : Option (List Char × List Char) :=
  if cs.take 5 = ['n', 'a', 'm', 'e', '='] then
    let body := cs.drop 5
    let nm := body.takeWhile (fun c => c != ',')
    if nm.isEmpty then none
    else
      match body.drop nm.length with
      | [] => some (nm, [])
      | ',' :: r => some (nm, r.dropWhile isPySpace)
      | _ => none
  else none

/-- `_parse_func_call` of `llm_client.py`: strip the call text, match the
head regex (raising the bad-format error on failure), then fold the
argument captures into a Python dict, stripping one layer of outer quotes
from each value before coercion. -/
def _parse_func_call (jsonP : String → Option Value) (s : String) :
    Except String (String × List (String × Value)) :=
  match splitNameArgs (pyStripList s.data) with
  | none => .error ((r"Bad func_call format: ") ++ s)
  | some (nm, args) =>
    let kwargs := (findArgs args).foldl
      (fun m kv => pyDictInsert m ⟨kv.1⟩ (_coerce_value jsonP ⟨stripOuterQuotes kv.2⟩)) []
    .ok (⟨pyStripList nm⟩, kwargs)

/-- Split at the first right bracket: content before it, rest after it;
none when no right bracket exists (then no later marker can close
either). -/
def splitAtRBracket (cs : List Char) : Option (List Char × List Char) :=
  let content := cs.takeWhile (fun c => c != ']')
  match cs.drop content.length with
  | ']' :: r => some (content, r)
  | _ => none

/-- Non-overlapping left-to-right scan of the marker pattern: at each
position, if the literal marker opener starts here and a closing bracket
follows, capture the (lazy) content and continue after the bracket;
otherwise advance one character. -/
def extractAux (fuel : Nat) (cs : List Char) : List (List Char) :=
  match fuel with
  | 0 => []
  | f + 1 =>
    if cs.take 11 = ['[', 'F', 'U', 'N', 'C', '_', 'C', 'A', 'L', 'L', ':'] then
      match splitAtRBracket (cs.drop 11) with
      | some (content, rest) => content :: extractAux f rest
      | none => []
    else
      match cs with
      | [] => []
      | _ :: rest => extractAux f rest

/-- `_extract_func_calls`: every marker body, in order of appearance, each
stripped. -/
def _extract_func_calls (text : String) : List String :=
  (extractAux (text.data.length + 1) text.data).map (fun c => ⟨pyStripList c⟩)

/-- The static tool registry of `tool_arguments.py`: tool name to the
allow-listed parameter names, in source order. -/
def tools_params : List (String × List String) := [
  (r"get_balance", [(r"customer_id"), (r"lang")]),
  (r"get_transactions", [(r"customer_id"), (r"limit"), (r"lang")]),
  (r"transfer_money", [(r"customer_id"), (r"to_name"), (r"amount"), (r"currency"), (r"lang")]),
  (r"get_last_incoming_transaction", [(r"customer_id"), (r"lang")]),
  (r"get_accounts_info", [(r"customer_id"), (r"lang")]),
  (r"get_incoming_sum_for_period", [(r"customer_id"), (r"start_date"), (r"end_date"), (r"lang")]),
  (r"get_outgoing_sum_for_period", [(r"customer_id"), (r"start_date"), (r"end_date"), (r"lang")]),
  (r"get_last_3_transfer_recipients", [(r"customer_id"), (r"lang")]),
  (r"get_largest_transaction", [(r"customer_id"), (r"lang")]),
  (r"list_all_card_names", []),
  (r"get_card_details", [(r"card_name")]),
  (r"compare_cards", [(r"card_names")]),
  (r"get_card_limits", [(r"card_name")]),
  (r"get_card_benefits", [(r"card_name")]),
  (r"get_cards_by_type", [(r"card_type")]),
  (r"get_cards_by_payment_system", [(r"system")]),
  (r"get_cards_by_fee_range", [(r"min_fee"), (r"max_fee")]),
  (r"get_cards_by_currency", [(r"currency")]),
  (r"get_card_instructions", [(r"card_name")]),
  (r"get_card_conditions", [(r"card_name")]),
  (r"get_cards_with_features", [(r"features")]),
  (r"get_card_recommendations", [(r"criteria")]),
  (r"get_bank_info", []),
  (r"get_bank_mission", []),
  (r"get_bank_values", []),
  (r"get_ownership_info", []),
  (r"get_branch_network", []),
  (r"get_contact_info", []),
  (r"get_complete_about_us", []),
  (r"get_about_us_section", [(r"section")]),
  (r"list_all_deposit_names", []),
  (r"get_deposit_details", [(r"deposit_name")]),
  (r"compare_deposits", [(r"deposit_names")]),
  (r"get_deposits_by_currency", [(r"currency")]),
  (r"get_deposits_by_term_range", [(r"min_term"), (r"max_term")]),
  (r"get_deposits_by_min_amount", [(r"max_amount")]),
  (r"get_deposits_by_rate_range", [(r"min_rate"), (r"max_rate")]),
  (r"get_deposits_with_replenishment", []),
  (r"get_deposits_with_capitalization", []),
  (r"get_deposits_by_withdrawal_type", [(r"withdrawal_type")]),
  (r"get_deposit_recommendations", [(r"criteria")]),
  (r"get_government_securities", []),
  (r"get_child_deposits", []),
  (r"get_online_deposits", []),
  (r"get_faq_by_category", [(r"category")])]

/-- `filter_tool_args` of `tool_arguments.py`: keep exactly the arguments
whose keys appear in the tool's allow-list; a name absent from the registry
yields the empty allow-list. -/
def filter_tool_args (name : String) (kwargs : List (String × Value)) :
    List (String × Value) :=
  let valid_params := (tools_params.lookup name).getD []
  kwargs.filter (fun kv => valid_params.contains kv.1)

/-- The inline error string `respond` renders for any exception raised
while handling one function call. -/
def errTag (fc e : String) : String :=
  (r"[ERROR calling ") ++ fc ++ (r": ") ++ e ++ (r"]")

/-- The customer-id defaulting of `respond`: when a user is authenticated
and the parsed arguments lack the customer-id key, assign the caller's own
id. -/
def injectCid (userId : Option Int) (kwargs : List (String × Value)) :
    List (String × Value) :=
  match userId with
  | some uid =>
    if hasKey kwargs (r"customer_id") then kwargs
    else pyDictInsert kwargs (r"customer_id") (.int uid)
  | none => kwargs

/-- The language defaulting of `respond`: when the parsed arguments lack
the lang key, assign the request language or the client default. -/
def injectLang (language : Option String) (defaultLang : String)
    (kwargs : List (String × Value)) : List (String × Value) :=
  if hasKey kwargs (r"lang") then kwargs
  else pyDictInsert kwargs (r"lang") (.str (language.getD defaultLang))

/-- The defaulting `respond` applies to a parsed argument dict before
filtering, in source order: customer id first, then language. -/
def injectDefaults (userId : Option Int) (language : Option String)
    (defaultLang : String) (kwargs : List (String × Value)) :
    List (String × Value) :=
  injectLang language defaultLang (injectCid userId kwargs)

/-- The body of `respond`'s per-call try block: parse the call, inject
defaults, filter by the allow-list, invoke the tool.  The tool invocation
(`call_mcp_tool`, an external MCP round trip) is the oracle `callTool`; a
`.error` on either stage is the caught exception, rendered as the inline
error string. -/
def handleFuncCall (jsonP : String → Option Value)
    (callTool : String → List (String × Value) → Except String String)
    (userId : Option Int) (language : Option String) (defaultLang : String)
    (fc : String) : String :=
  match _parse_func_call jsonP fc with
  | .error e => errTag fc e
  | .ok (name, kwargs0) =>
    match callTool name (filter_tool_args name (injectDefaults userId language defaultLang kwargs0)) with
    | .ok out => out
    | .error e => errTag fc e

/-- The shape of `respond`'s return value: the no-marker branch returns the
Python set literal holding the full text; the marker branch returns the
dict with the joined text and the extracted calls. -/
inductive RespondResult where
  | rawSet (s : String)
  | record (text : String) (funcCalls : List String)
  deriving DecidableEq, Repr

/-- The reply text a caller reads out of either shape of `respond`'s
result. -/
def replyText : RespondResult → String
  | .rawSet s => s
  | .record t _ => t

/-- `AitilLLMClient.respond` after the SSE stream has been aggregated into
`fullText`: extract the markers; with none, return the raw set; otherwise
handle every call in order and join the results with newlines (the
original text would be kept only if the result list were empty, which
cannot happen for a nonempty call list). -/
def respond (jsonP : String → Option Value)
    (callTool : String → List (String × Value) → Except String String)
    (userId : Option Int) (language : Option String) (defaultLang : String)
    (fullText : String) : RespondResult :=
  let func_calls := _extract_func_calls fullText
  if func_calls.isEmpty then .rawSet fullText
  else
    let results := func_calls.map (handleFuncCall jsonP callTool userId language defaultLang)
    .record (if results.isEmpty then fullText else String.intercalate ⟨['\n']⟩ results) func_calls

/-- Account status enum of `models.py`. -/
inductive AccountStatus where
  | active
  | frozen
  | closed
  deriving DecidableEq, Repr

/-- Transaction type enum of `models.py`. -/
inductive TransactionType where
  | deposit
  | withdrawal
  | transfer
  | payment
  deriving DecidableEq, Repr

/-- Transaction status enum of `models.py` (schema default is pending). -/
inductive TransactionStatus where
  | pending
  | completed
  | failed
  deriving DecidableEq, Repr

/-- A bank customer, restricted to the fields the modelled services read. -/
structure Customer where
  id : Int
  first_name : String
  last_name : String
  deriving DecidableEq, Repr

/-- A bank account; `Numeric(18,2)` balances are integer cents. -/
structure Account where
  id : Int
  customer_id : Int
  currency : String
  balance : Int
  status : AccountStatus
  deriving DecidableEq, Repr

/-- A transaction row; amounts are integer cents and timestamps rational
UTC seconds (the autogenerated primary key is omitted). -/
structure Transaction where
  account_id : Int
  transaction_type : TransactionType
  amount : Int
  currency : String
  description : String
  status : TransactionStatus
  created_at : ℚ
  updated_at : ℚ
  deriving DecidableEq, Repr

/-- The ledger store visible to the modelled services: customers, accounts
and transactions in stable table order. -/
structure BankState where
  customers : List Customer
  accounts : List Account
  transactions : List Transaction
  deriving DecidableEq, Repr

/-- The localized user-message keys of the `_MSG` table that the modelled
services produce (each standing for the `_t`-rendered text in the request
language). -/
inductive Msg where
  | wrong_amount
  | need_amount
  | user_not_found (name : String)
  | cannot_self
  | accounts_missing
  | account_blocked
  | not_enough
  | ok_transfer (amountCents : Int) (to_name : String)
  deriving DecidableEq, Repr

/-- `Decimal.quantize(Decimal(str(0.01)), rounding=ROUND_HALF_UP)` to whole
cents: round half away from zero. -/
def quantize2HalfUp (q : ℚ) : Int :=
  if 0 ≤ q then ⌊q * 100 + 1 / 2⌋ else -⌊-q * 100 + 1 / 2⌋

/-- `_full_name`: first and last name joined by a space, empty parts
dropped. -/
def _full_name (c : Customer) : String :=
  String.intercalate ⟨[' ']⟩ (([c.first_name, c.last_name]).filter (fun p => p ≠ (r"")))

/-- `_normalize_name`: strip, lower-case, collapse inner whitespace to
single spaces. -/
def _normalize_name (name : String) : String :=
  String.intercalate ⟨[' ']⟩ (pySplit (pyLower (pyStrip name)))

/-- SQL `TRIM` (space characters only, both ends) on a character list. -/
def sqlTrimList (cs : List Char) : List Char :=
  ((cs.dropWhile (fun c => c == ' ')).reverse.dropWhile (fun c => c == ' ')).reverse

/-- The recipient-lookup key the transfer query computes per customer row:
lower(trim(first_name concatenated with a space and last_name)). -/
def recipientKey (c : Customer) : String :=
  pyLower ⟨sqlTrimList (c.first_name ++ ⟨[' ']⟩ ++ c.last_name).data⟩

/-- The recipient query of `transfer_money`: the first customer row whose
key equals the normalized display name (the select with limit 1, in stable
table order). -/
def findRecipient (customers : List Customer) (norm : String) : Option Customer :=
  customers.find? (fun c => recipientKey c == norm)

/-- The account-selection query of `transfer_money`: the first account row
of the given customer that is active and in the requested currency,
together with its position in the table. -/
def findAccountAux (i : Nat) : List Account → Int → String → Option (Nat × Account)
  | [], _, _ => none
  | a :: rest, cid, cur =>
    if a.customer_id = cid ∧ a.status = AccountStatus.active ∧ a.currency = cur
    then some (i, a)
    else findAccountAux (i + 1) rest cid cur

/-- Select the first active same-currency account of a customer. -/
def findAccount (accounts : List Account) (cid : Int) (cur : String) :
    Option (Nat × Account) :=
  findAccountAux 0 accounts cid cur

/-- `transfer_money` of `personal_services.py`.  The amount argument models
`Decimal(str(amount))`: `none` when that conversion (or the quantize on a
non-finite value) raises, otherwise the parsed rational.  Steps, in source
order: quantize and validate the amount, resolve the recipient by
normalized display name, reject self-transfer, select one active account
per side in the requested currency, re-check statuses, check funds, debit
and credit, and append the transfer-typed and deposit-typed rows (both
completed, sharing description and the `utcnow` timestamp).  Every failure
path leaves the state unchanged; the successful transaction commits. -/
def transfer_money (st : BankState) (from_customer : Customer) (to_name : String)
    (amount : Option ℚ) (currency : String) (now : ℚ) :
    BankState × Bool × Msg :=
  match amount with
  | none => (st, false, .wrong_amount)
  | some q =>
    let amt := quantize2HalfUp q
    if amt ≤ 0 then (st, false, .need_amount)
    else
      match findRecipient st.customers (_normalize_name to_name) with
      | none => (st, false, .user_not_found to_name)
      | some to_customer =>
        if to_customer.id = from_customer.id then (st, false, .cannot_self)
        else
          match findAccount st.accounts from_customer.id currency,
                findAccount st.accounts to_customer.id currency with
          | some fi, some ti =>
            let from_acc := fi.2
            let to_acc := ti.2
            if from_acc.status ≠ AccountStatus.active ∨ to_acc.status ≠ AccountStatus.active then
              (st, false, .account_blocked)
            else if from_acc.balance < amt then (st, false, .not_enough)
            else
              let accounts1 := st.accounts.set fi.1 { from_acc with balance := from_acc.balance - amt }
              let accounts2 := accounts1.set ti.1 { to_acc with balance := to_acc.balance + amt }
              let desc := (r"from ") ++ _full_name from_customer ++ (r" to ") ++ _full_name to_customer
              let tx_out : Transaction :=
                ⟨from_acc.id, .transfer, amt, currency, desc, .completed, now, now⟩
              let tx_in : Transaction :=
                ⟨to_acc.id, .deposit, amt, currency, desc, .completed, now, now⟩
              ({ st with
                  accounts := accounts2,
                  transactions := st.transactions ++ [tx_out, tx_in] },
               true, .ok_transfer amt (_full_name to_customer))
          | _, _ => (st, false, .accounts_missing)

/-- The per-row direction label of `get_transactions` and
`get_largest_transaction`: deposit is incoming, withdrawal and payment are
outgoing, and the transfer fallback branch labels the row outgoing ("from
the perspective of its own record", per the source comment). -/
def directionOf (t : TransactionType) : String :=
  if t = TransactionType.deposit then (r"<-")
  else if t = TransactionType.withdrawal ∨ t = TransactionType.payment then (r"->")
  else (r"->")

/-- The transaction-type filter of `get_incoming_sum_for_period` (also of
`get_last_incoming_transaction`): deposit and transfer rows. -/
def incomingTypes : List TransactionType := [.deposit, .transfer]

/-- The transaction-type filter of `get_outgoing_sum_for_period`:
withdrawal, transfer and payment rows. -/
def outgoingTypes : List TransactionType := [.withdrawal, .transfer, .payment]

/-- The fixed UTC offset of the Asia/Bishkek zone, in seconds (UTC+6, no
daylight saving; the offset pytz applies to every date since 2005, the era
the period queries operate in). -/
def bishkekOffset : Int := 6 * 3600

/-- The lower UTC bound of a period query: local midnight opening the start
day, converted to UTC seconds.  Days are calendar-day numbers (days since
the local epoch day), so local midnight of day `d` is `d * 86400` local
seconds. -/
def periodStartUtc (startDay : Int) : Int :=
  startDay * 86400 - bishkekOffset

/-- The upper UTC bound of a period query: the code adds one day to the end
day's local midnight and subtracts one second, then converts to UTC. -/
def periodEndUtc (endDay : Int) : Int :=
  (endDay + 1) * 86400 - 1 - bishkekOffset

/-- The timestamp window of the period queries as executed: a closed
interval between the converted bounds (`created_at >= start` and
`created_at <= end`). -/
def inQueryRange (startDay endDay : Int) (t : ℚ) : Prop :=
  (periodStartUtc startDay : ℚ) ≤ t ∧ t ≤ (periodEndUtc endDay : ℚ)

instance (s e : Int) (t : ℚ) : Decidable (inQueryRange s e t) := by
  unfold inQueryRange; infer_instance

/-- The inclusive local calendar-day window the period parameters denote: a
UTC instant falls in it when its local time is on or after midnight of the
start day and before midnight after the end day. -/
def inLocalDayRange (startDay endDay : Int) (t : ℚ) : Prop :=
  (startDay * 86400 - bishkekOffset : Int) ≤ t ∧ t < ((endDay + 1) * 86400 - bishkekOffset : Int)

instance (s e : Int) (t : ℚ) : Decidable (inLocalDayRange s e t) := by
  unfold inLocalDayRange; infer_instance

/-- The account ids of a customer, in table order (the account-id select
shared by the read tools). -/
def customerAccountIds (st : BankState) (c : Customer) : List Int :=
  (st.accounts.filter (fun a => a.customer_id == c.id)).map (fun a => a.id)

/-- `get_incoming_sum_for_period`: none (the no-accounts message) when the
customer has no accounts, else the sum in cents of every transaction on the
customer's accounts whose type is deposit or transfer and whose timestamp
lies in the converted window. -/
def get_incoming_sum_for_period (st : BankState) (c : Customer)
    (startDay endDay : Int) : Option Int :=
  let accIds := customerAccountIds st c
  if accIds.isEmpty then none
  else some (((st.transactions.filter (fun t =>
      accIds.contains t.account_id &&
      incomingTypes.contains t.transaction_type &&
      decide (inQueryRange startDay endDay t.created_at))).map (fun t => t.amount)).sum)

/-- `get_outgoing_sum_for_period`: as the incoming sum, with the
withdrawal/transfer/payment type filter. -/
def get_outgoing_sum_for_period (st : BankState) (c : Customer)
    (startDay endDay : Int) : Option Int :=
  let accIds := customerAccountIds st c
  if accIds.isEmpty then none
  else some (((st.transactions.filter (fun t =>
      accIds.contains t.account_id &&
      outgoingTypes.contains t.transaction_type &&
      decide (inQueryRange startDay endDay t.created_at))).map (fun t => t.amount)).sum)

/-! Concrete fixtures used by witnesses and counterexamples. -/

/-- A JSON oracle that always fails to parse. -/
def noJson : String → Option Value := fun _ => none

/-- A tool-call oracle that answers every call with a marked echo of the
tool name. -/
def okCallTool : String → List (String × Value) → Except String String :=
  fun name _ => .ok ((r"R:") ++ name)

/-- Newline as a string. -/
def nl : String := ⟨['\n']⟩

/-- Fixture customer (id 1). -/
def custA : Customer := ⟨1, (r"Aigerim"), (r"Sadykova")⟩

/-- Fixture customer (id 2). -/
def custB : Customer := ⟨2, (r"Bakyt"), (r"Asanov")⟩

/-- Fixture account of customer 1 with 1000.00 KGS. -/
def accA : Account := ⟨10, 1, (r"KGS"), 100000, .active⟩

/-- Fixture account of customer 2 with 50.00 KGS. -/
def accB : Account := ⟨20, 2, (r"KGS"), 5000, .active⟩

/-- Fixture ledger with two customers, one active KGS account each, no
transactions. -/
def stW : BankState := ⟨[custA, custB], [accA, accB], []⟩

/-- Fixture ledger whose single transaction is transfer-typed, timestamped
inside local day 0. -/
def stC8 : BankState :=
  ⟨[custA], [⟨10, 1, (r"KGS"), 0, .active⟩],
   [⟨10, .transfer, 500, (r"KGS"), (r"d"), .completed, 0, 0⟩]⟩

/-- Fixture ledger whose single deposit is timestamped half a second into
the final second of local day 0 (UTC seconds 64799.5). -/
def stC9 : BankState :=
  ⟨[custA], [⟨10, 1, (r"KGS"), 0, .active⟩],
   [⟨10, .deposit, 700, (r"KGS"), (r"d"), .completed, mkRat 129599 2, mkRat 129599 2⟩]⟩

/-- The ledger after the fixture transfer of 150.50 KGS from customer 1 to
customer 2 at time 0. -/
def stWres : BankState :=
  ⟨[custA, custB],
   [⟨10, 1, (r"KGS"), 84950, .active⟩, ⟨20, 2, (r"KGS"), 20050, .active⟩],
   [⟨10, .transfer, 15050, (r"KGS"), (r"from Aigerim Sadykova to Bakyt Asanov"), .completed, 0, 0⟩,
    ⟨20, .deposit, 15050, (r"KGS"), (r"from Aigerim Sadykova to Bakyt Asanov"), .completed, 0, 0⟩]⟩

/-- Fixture LLM output with two well-formed markers amid prose. -/
def twoMarkerText : String :=
  r"Here you go [FUNC_CALL:name=get_balance] and also [FUNC_CALL:name=get_bank_info] done"

/-- Fixture LLM output whose first marker is malformed and whose second is
well-formed. -/
def mixedText : String :=
  r"A [FUNC_CALL:oops] B [FUNC_CALL:name=get_bank_info] C"

/-! Helper lemmas (not claim theorems). -/

/-- Quantizing a nonpositive amount yields a nonpositive number of cents. -/
theorem quantize2HalfUp_nonpos {q : ℚ} (hq : q ≤ 0) : quantize2HalfUp q ≤ 0 := by
  unfold quantize2HalfUp
  split
  · have h0 : q = 0 := le_antisymm hq (by assumption)
    subst h0
    norm_num
  · have h1 : (0 : Int) ≤ ⌊-q * 100 + 1 / 2⌋ := by
      rw [Int.le_floor]
      push_cast
      nlinarith
    omega

/-- Concrete quantizations used by witnesses: 150.50 is 15050 cents, 5 is
500 cents, 10000 is 1000000 cents, 0 is 0 cents. -/
theorem quantize2HalfUp_values :
    quantize2HalfUp (301 / 2) = 15050 ∧ quantize2HalfUp 5 = 500 ∧
    quantize2HalfUp 10000 = 1000000 ∧ quantize2HalfUp 0 = 0 := by
  refine ⟨?_, ?_, ?_, ?_⟩ <;> norm_num [quantize2HalfUp]

/-- What a successful account-selection lookup guarantees, generalized over
the running index. -/
theorem findAccountAux_spec (l : List Account) (i j : Nat) (cid : Int)
    (cur : String) (a : Account)
    (h : findAccountAux i l cid cur = some (j, a)) :
    i ≤ j ∧ j - i < l.length ∧ l[j - i]? = some a ∧
      a.customer_id = cid ∧ a.status = .active ∧ a.currency = cur := by
  induction l generalizing i with
  | nil => simp [findAccountAux] at h
  | cons hd tl ih =>
    rw [findAccountAux] at h
    split at h
    · obtain ⟨h1, h2⟩ := Prod.mk.injEq .. ▸ (Option.some.injEq .. ▸ h)
      subst h1; subst h2
      refine ⟨le_refl _, by simp, by simp, ?_⟩
      simp_all
    · obtain ⟨hle, hlt, hget, hrest⟩ := ih (i + 1) h
      refine ⟨by omega, by simp; omega, ?_, hrest⟩
      have hji : j - i = (j - (i + 1)) + 1 := by omega
      rw [hji]
      simpa using hget

/-- What a successful account selection guarantees: a valid table index
holding the returned account, which belongs to the requested customer, is
active and is in the requested currency. -/
theorem findAccount_spec {l : List Account} {j : Nat} {cid : Int}
    {cur : String} {a : Account}
    (h : findAccount l cid cur = some (j, a)) :
    j < l.length ∧ l[j]? = some a ∧
      a.customer_id = cid ∧ a.status = .active ∧ a.currency = cur := by
  obtain ⟨-, hlt, hget, hrest⟩ := findAccountAux_spec l 0 j cid cur a h
  simpa using ⟨hlt, hget, hrest⟩

/-- The complete successful run of the transfer engine: with a positive
quantized amount, a resolved distinct recipient, an active same-currency
account selected on each side, and sufficient funds, `transfer_money`
debits, credits and appends exactly the two transaction rows. -/
theorem transfer_money_success_run
    (st : BankState) (c toC : Customer) (to_name : String) (q : ℚ)
    (cur : String) (now : ℚ) (i j : Nat) (fa ta : Account)
    (hq : 0 < quantize2HalfUp q)
    (hrec : findRecipient st.customers (_normalize_name to_name) = some toC)
    (hne : ¬ toC.id = c.id)
    (hfa : findAccount st.accounts c.id cur = some (i, fa))
    (hta : findAccount st.accounts toC.id cur = some (j, ta))
    (hbal : ¬ fa.balance < quantize2HalfUp q) :
    transfer_money st c to_name (some q) cur now =
      ({ st with
          accounts := (st.accounts.set i
              { fa with balance := fa.balance - quantize2HalfUp q }).set j
              { ta with balance := ta.balance + quantize2HalfUp q },
          transactions := st.transactions ++
            [⟨fa.id, .transfer, quantize2HalfUp q, cur,
              (r"from ") ++ _full_name c ++ (r" to ") ++ _full_name toC,
              .completed, now, now⟩,
             ⟨ta.id, .deposit, quantize2HalfUp q, cur,
              (r"from ") ++ _full_name c ++ (r" to ") ++ _full_name toC,
              .completed, now, now⟩] },
       true, .ok_transfer (quantize2HalfUp q) (_full_name toC)) := by
  obtain ⟨-, -, -, hfas, -⟩ := findAccount_spec hfa
  obtain ⟨-, -, -, htas, -⟩ := findAccount_spec hta
  unfold transfer_money
  simp only [hrec, hfa, hta]
  rw [if_neg (not_le.mpr hq), if_neg hne]
  rw [if_neg (by simp [hfas, htas]), if_neg hbal]

/-- The insufficient-funds run of the transfer engine: all earlier checks
pass but the selected source balance is below the quantized amount; the
call fails with the not-enough message and the state is unchanged. -/
theorem transfer_money_not_enough_run
    (st : BankState) (c toC : Customer) (to_name : String) (q : ℚ)
    (cur : String) (now : ℚ) (i j : Nat) (fa ta : Account)
    (hq : 0 < quantize2HalfUp q)
    (hrec : findRecipient st.customers (_normalize_name to_name) = some toC)
    (hne : ¬ toC.id = c.id)
    (hfa : findAccount st.accounts c.id cur = some (i, fa))
    (hta : findAccount st.accounts toC.id cur = some (j, ta))
    (hbal : fa.balance < quantize2HalfUp q) :
    transfer_money st c to_name (some q) cur now = (st, false, .not_enough) := by
  obtain ⟨-, -, -, hfas, -⟩ := findAccount_spec hfa
  obtain ⟨-, -, -, htas, -⟩ := findAccount_spec hta
  unfold transfer_money
  simp only [hrec, hfa, hta]
  rw [if_neg (not_le.mpr hq), if_neg hne]
  rw [if_neg (by simp [hfas, htas]), if_pos hbal]

/-- The self-transfer run: the amount parses and quantizes positive and the
recipient resolves to the caller; the call fails with the cannot-self
message and the state is unchanged. -/
theorem transfer_money_self_run
    (st : BankState) (c toC : Customer) (to_name : String) (q : ℚ)
    (cur : String) (now : ℚ)
    (hq : 0 < quantize2HalfUp q)
    (hrec : findRecipient st.customers (_normalize_name to_name) = some toC)
    (hself : toC.id = c.id) :
    transfer_money st c to_name (some q) cur now = (st, false, .cannot_self) := by
  unfold transfer_money
  simp only [hrec]
  rw [if_neg (not_le.mpr hq), if_pos hself]

/-- C1 (amended): for every transfer request whose amount parses and
quantizes to a positive number of cents, where the resolved recipient
differs from the caller, an active account in the requested currency is
selected on each side, and the source balance covers the quantized amount:
the call succeeds, the selected accounts' balances sum to the same total
after as before (the debit equals the credit), and exactly two new rows are
appended — a transfer-typed row on the source account and a deposit-typed
row on the destination account, both carrying the quantized amount. -/
theorem c1_transfer_conserves
    (st : BankState) (c toC : Customer) (to_name : String) (q : ℚ)
    (cur : String) (now : ℚ) (i j : Nat) (fa ta : Account)
    (hq : 0 < quantize2HalfUp q)
    (hrec : findRecipient st.customers (_normalize_name to_name) = some toC)
    (hne : ¬ toC.id = c.id)
    (hfa : findAccount st.accounts c.id cur = some (i, fa))
    (hta : findAccount st.accounts toC.id cur = some (j, ta))
    (hbal : quantize2HalfUp q ≤ fa.balance) :
    (transfer_money st c to_name (some q) cur now).2.1 = true ∧
    (∃ fa' ta',
      (transfer_money st c to_name (some q) cur now).1.accounts[i]? = some fa' ∧
      (transfer_money st c to_name (some q) cur now).1.accounts[j]? = some ta' ∧
      fa'.balance + ta'.balance = fa.balance + ta.balance) ∧
    (∃ txo txi,
      (transfer_money st c to_name (some q) cur now).1.transactions =
        st.transactions ++ [txo, txi] ∧
      txo.transaction_type = .transfer ∧ txo.account_id = fa.id ∧
      txi.transaction_type = .deposit ∧ txi.account_id = ta.id ∧
      txo.amount = quantize2HalfUp q ∧ txi.amount = quantize2HalfUp q) := by
  have hrn := transfer_money_success_run st c toC to_name q cur now i j fa ta
    hq hrec hne hfa hta (not_lt.mpr hbal)
  obtain ⟨hfi, hfget, hfc, -, -⟩ := findAccount_spec hfa
  obtain ⟨hti, htget, htc, -, -⟩ := findAccount_spec hta
  have hij : i ≠ j := by
    intro hee
    subst hee
    rw [hfget] at htget
    have hfa_ta : fa = ta := by injection htget
    apply hne
    rw [← htc, ← hfa_ta, hfc]
  rw [hrn]
  refine ⟨rfl,
    ⟨{ fa with balance := fa.balance - quantize2HalfUp q },
     { ta with balance := ta.balance + quantize2HalfUp q }, ?_, ?_, by ring⟩,
    _, _, rfl, rfl, rfl, rfl, rfl, rfl, rfl⟩
  · rw [List.getElem?_set_ne (Ne.symm hij), List.getElem?_set_self (by simpa using hfi)]
  · rw [List.getElem?_set_self (by simpa using hti)]

/-- Witness for the C1 theorem: the fixture transfer of 150.50 KGS from
customer 1 to customer 2 satisfies every hypothesis and the conclusion. -/
theorem c1_transfer_conserves_witness :
    (transfer_money stW custA (r"Bakyt Asanov") (some (301 / 2)) (r"KGS") 0).2.1 = true ∧
    (∃ fa' ta',
      (transfer_money stW custA (r"Bakyt Asanov") (some (301 / 2)) (r"KGS") 0).1.accounts[0]? = some fa' ∧
      (transfer_money stW custA (r"Bakyt Asanov") (some (301 / 2)) (r"KGS") 0).1.accounts[1]? = some ta' ∧
      fa'.balance + ta'.balance = accA.balance + accB.balance) ∧
    (∃ txo txi,
      (transfer_money stW custA (r"Bakyt Asanov") (some (301 / 2)) (r"KGS") 0).1.transactions =
        stW.transactions ++ [txo, txi] ∧
      txo.transaction_type = .transfer ∧ txo.account_id = accA.id ∧
      txi.transaction_type = .deposit ∧ txi.account_id = accB.id ∧
      txo.amount = quantize2HalfUp (301 / 2) ∧ txi.amount = quantize2HalfUp (301 / 2)) :=
  c1_transfer_conserves stW custA custB (r"Bakyt Asanov") (301 / 2) (r"KGS") 0 0 1 accA accB
    (by rw [quantize2HalfUp_values.1]; decide) rfl (by decide) rfl rfl
    (by rw [quantize2HalfUp_values.1]; decide)

/-- C1 as stated is false: with amount 0 every stated condition holds (the
source balance is at least the rounded amount, an active same-currency
account is selected on each side, and the resolved recipient differs from
the caller) yet the transfer fails with the need-amount message and
mutates nothing. -/
theorem c1_counterexample :
    findRecipient stW.customers (_normalize_name (r"Bakyt Asanov")) = some custB ∧
    custB.id ≠ custA.id ∧
    findAccount stW.accounts custA.id (r"KGS") = some (0, accA) ∧
    findAccount stW.accounts custB.id (r"KGS") = some (1, accB) ∧
    quantize2HalfUp 0 ≤ accA.balance ∧
    transfer_money stW custA (r"Bakyt Asanov") (some 0) (r"KGS") 0 =
      (stW, false, .need_amount) :=
  ⟨rfl, by decide, rfl, rfl,
   by rw [quantize2HalfUp_values.2.2.2]; decide,
   by simp only [transfer_money]; rw [if_pos (quantize2HalfUp_nonpos le_rfl)]⟩

/-- C2: a non-numeric amount fails with the wrong-amount message; a parsed
amount at most zero fails with the need-amount message; and when every
earlier check passes but the locked source account's balance is below the
quantized amount, the call fails with the not-enough message — in each
case the returned ledger is the input ledger, so no balance is changed and
no transaction row is created. -/
theorem c2_amount_and_funds_failures :
    (∀ st c to_name cur now,
      transfer_money st c to_name none cur now = (st, false, .wrong_amount)) ∧
    (∀ st c to_name (q : ℚ) cur now, q ≤ 0 →
      transfer_money st c to_name (some q) cur now = (st, false, .need_amount)) ∧
    (∀ st c toC to_name (q : ℚ) cur now i j fa ta,
      0 < quantize2HalfUp q →
      findRecipient st.customers (_normalize_name to_name) = some toC →
      ¬ toC.id = c.id →
      findAccount st.accounts c.id cur = some (i, fa) →
      findAccount st.accounts toC.id cur = some (j, ta) →
      fa.balance < quantize2HalfUp q →
      transfer_money st c to_name (some q) cur now = (st, false, .not_enough)) := by
  refine ⟨fun st c to_name cur now => rfl, ?_, ?_⟩
  · intro st c to_name q cur now hq
    simp only [transfer_money]
    rw [if_pos (quantize2HalfUp_nonpos hq)]
  · exact fun st c toC to_name q cur now i j fa ta hq hrec hne hfa hta hbal =>
      transfer_money_not_enough_run st c toC to_name q cur now i j fa ta hq hrec hne hfa hta hbal

/-- Witness for the C2 theorem: each failure branch exercised on the
fixture ledger (non-numeric amount, amount minus three, amount 10000.00
exceeding the 1000.00 balance). -/
theorem c2_amount_and_funds_failures_witness :
    transfer_money stW custA (r"Bakyt Asanov") none (r"KGS") 0 = (stW, false, .wrong_amount) ∧
    transfer_money stW custA (r"Bakyt Asanov") (some (-3)) (r"KGS") 0 = (stW, false, .need_amount) ∧
    transfer_money stW custA (r"Bakyt Asanov") (some 10000) (r"KGS") 0 = (stW, false, .not_enough) :=
  ⟨c2_amount_and_funds_failures.1 stW custA (r"Bakyt Asanov") (r"KGS") 0,
   c2_amount_and_funds_failures.2.1 stW custA (r"Bakyt Asanov") (-3) (r"KGS") 0 (by norm_num),
   c2_amount_and_funds_failures.2.2 stW custA custB (r"Bakyt Asanov") 10000 (r"KGS") 0 0 1 accA accB
     (by rw [quantize2HalfUp_values.2.2.1]; decide) rfl (by decide) rfl rfl
     (by rw [quantize2HalfUp_values.2.2.1]; decide)⟩

/-- C4 (amended): a self-transfer fails with the cannot-self message for
every amount that parses and quantizes positive, with the state unchanged;
amount validation runs first, so a self-transfer request with a
non-numeric amount fails with the wrong-amount message instead. -/
theorem c4_self_transfer
    (st : BankState) (c toC : Customer) (to_name : String) (q : ℚ)
    (cur : String) (now : ℚ)
    (hq : 0 < quantize2HalfUp q)
    (hrec : findRecipient st.customers (_normalize_name to_name) = some toC)
    (hself : toC.id = c.id) :
    transfer_money st c to_name (some q) cur now = (st, false, .cannot_self) ∧
    transfer_money st c to_name none cur now = (st, false, .wrong_amount) :=
  ⟨transfer_money_self_run st c toC to_name q cur now hq hrec hself, rfl⟩

/-- Witness for the C4 theorem: customer 1 sending 5.00 to their own
display name (case-folded and whitespace-collapsed by the resolver). -/
theorem c4_self_transfer_witness :
    transfer_money stW custA (r"  aigerim   SADYKOVA ") (some 5) (r"KGS") 0 =
      (stW, false, .cannot_self) ∧
    transfer_money stW custA (r"  aigerim   SADYKOVA ") none (r"KGS") 0 =
      (stW, false, .wrong_amount) :=
  c4_self_transfer stW custA custA (r"  aigerim   SADYKOVA ") 5 (r"KGS") 0
    (by rw [quantize2HalfUp_values.2.1]; decide) rfl rfl

/-- C4 as stated is false: a self-transfer whose amount is non-numeric
fails with the wrong-amount message, not the cannot-self message — amount
validation precedes recipient resolution. -/
theorem c4_counterexample :
    findRecipient stW.customers (_normalize_name (r"Aigerim Sadykova")) = some custA ∧
    transfer_money stW custA (r"Aigerim Sadykova") none (r"KGS") 0 =
      (stW, false, .wrong_amount) ∧
    Msg.wrong_amount ≠ Msg.cannot_self :=
  ⟨rfl, rfl, by decide⟩

/-- C10: every transaction row created by a successful transfer is created
with the completed status (never the schema default pending and never
failed), and the two legs carry the same amount, the requested currency,
the same description, and identical creation and update timestamps (the
shared utcnow), with the transfer-typed leg first and the deposit-typed
leg second. -/
theorem c10_success_rows
    (st : BankState) (c : Customer) (to_name : String) (amount : Option ℚ)
    (cur : String) (now : ℚ) (st' : BankState) (msg : Msg)
    (h : transfer_money st c to_name amount cur now = (st', true, msg)) :
    ∃ txo txi,
      st'.transactions = st.transactions ++ [txo, txi] ∧
      txo.status = .completed ∧ txi.status = .completed ∧
      txo.transaction_type = .transfer ∧ txi.transaction_type = .deposit ∧
      txo.amount = txi.amount ∧ txo.currency = cur ∧ txi.currency = cur ∧
      txo.description = txi.description ∧
      txo.created_at = now ∧ txo.updated_at = now ∧
      txi.created_at = now ∧ txi.updated_at = now := by
  cases amount with
  | none =>
    simp only [transfer_money] at h
    exact absurd (congrArg (fun p => p.2.1) h) (by simp)
  | some q =>
    simp only [transfer_money] at h
    split at h
    · exact absurd (congrArg (fun p => p.2.1) h) (by simp)
    · split at h
      · exact absurd (congrArg (fun p => p.2.1) h) (by simp)
      · split at h
        · exact absurd (congrArg (fun p => p.2.1) h) (by simp)
        · split at h
          · split at h
            · exact absurd (congrArg (fun p => p.2.1) h) (by simp)
            · split at h
              · exact absurd (congrArg (fun p => p.2.1) h) (by simp)
              · have hst : _ = st' := congrArg Prod.fst h
                subst hst
                exact ⟨_, _, rfl, rfl, rfl, rfl, rfl, rfl, rfl, rfl, rfl, rfl, rfl, rfl, rfl⟩
          · exact absurd (congrArg (fun p => p.2.1) h) (by simp)

/-- Witness for the C10 theorem at the fixture transfer of 150.50 KGS from
customer 1 to customer 2 at time 0. -/
theorem c10_success_rows_witness :
    ∃ txo txi,
      stWres.transactions = stW.transactions ++ [txo, txi] ∧
      txo.status = .completed ∧ txi.status = .completed ∧
      txo.transaction_type = .transfer ∧ txi.transaction_type = .deposit ∧
      txo.amount = txi.amount ∧ txo.currency = (r"KGS") ∧ txi.currency = (r"KGS") ∧
      txo.description = txi.description ∧
      txo.created_at = 0 ∧ txo.updated_at = 0 ∧
      txi.created_at = 0 ∧ txi.updated_at = 0 :=
  c10_success_rows stW custA (r"Bakyt Asanov") (some (301 / 2)) (r"KGS") 0 stWres
    (.ok_transfer 15050 (r"Bakyt Asanov"))
    (by
      rw [transfer_money_success_run stW custA custB (r"Bakyt Asanov") (301 / 2) (r"KGS") 0
          0 1 accA accB
          (by rw [quantize2HalfUp_values.1]; decide) rfl (by decide) rfl rfl
          (by rw [quantize2HalfUp_values.1]; decide),
        quantize2HalfUp_values.1]
      rfl)

/-- C8 is false as stated: the period incoming sum counts transfer-typed
rows.  On a ledger whose only transaction is transfer-typed (timestamped
inside the queried local day), the incoming sum for that day is the row's
amount, not zero. -/
theorem c8_counterexample :
    stC8.transactions.all (fun t => t.transaction_type == TransactionType.transfer) = true ∧
    get_incoming_sum_for_period stC8 custA 0 0 = some 500 ∧
    (500 : Int) ≠ 0 :=
  ⟨rfl, rfl, by decide⟩

/-- C8 (amended): the per-row direction label marks exactly deposit rows
incoming and every other type (withdrawal, payment, transfer) outgoing;
but the period sums use type sets in which transfer appears on both sides:
the incoming sum counts deposit and transfer rows and the outgoing sum
counts withdrawal, transfer and payment rows, so a transfer-typed row on
the examined account is counted by both period sums (the fixture ledger's
single transfer row contributes 500 to each). -/
theorem c8_direction_and_type_sets :
    (∀ t, directionOf t = (r"<-") ↔ t = .deposit) ∧
    (∀ t, directionOf t = (r"->") ↔ t ≠ .deposit) ∧
    (∀ t, t ∈ incomingTypes ↔ (t = .deposit ∨ t = .transfer)) ∧
    (∀ t, t ∈ outgoingTypes ↔ (t = .withdrawal ∨ t = .transfer ∨ t = .payment)) ∧
    get_outgoing_sum_for_period stC8 custA 0 0 = some 500 := by
  refine ⟨?_, ?_, ?_, ?_, rfl⟩ <;> intro t <;> cases t <;> decide

/-- C9 is false as stated: the executed window is a closed interval ending
at the last whole second of the final local day, so a transaction
timestamped half a second later (still inside the inclusive local-day
range, at local 23:59:59.5) is not counted — the deposit of the fixture
ledger is inside the local-day window yet the incoming sum for that day is
zero. -/
theorem c9_counterexample :
    inLocalDayRange 0 0 (mkRat 129599 2) ∧
    (mkRat 129599 2 : ℚ) = 64799 + 1 / 2 ∧
    stC9.transactions.all
      (fun t => decide (t.created_at = mkRat 129599 2) && t.transaction_type == TransactionType.deposit) = true ∧
    get_incoming_sum_for_period stC9 custA 0 0 = some 0 :=
  ⟨by decide, by norm_num [Rat.mkRat_eq_div], rfl, rfl⟩

/-- C9 (amended): the local calendar-day range is converted to a closed
UTC window whose upper bound is the final whole second of the last local
day; every whole-second timestamp is counted exactly when it lies in the
inclusive local-day range, and everything counted lies in that range (only
fractional-second instants inside the final second are missed). -/
theorem c9_range_conversion :
    (∀ s e n : Int, inQueryRange s e (n : ℚ) ↔ inLocalDayRange s e (n : ℚ)) ∧
    (∀ s e : Int, ∀ t : ℚ, inQueryRange s e t → inLocalDayRange s e t) := by
  constructor
  · intro s e n
    unfold inQueryRange inLocalDayRange periodStartUtc periodEndUtc
    rw [Int.cast_le, Int.cast_le, Int.cast_lt]
    omega
  · intro s e t
    unfold inQueryRange inLocalDayRange periodStartUtc periodEndUtc
    rintro ⟨h1, h2⟩
    refine ⟨h1, lt_of_le_of_lt h2 ?_⟩
    have h3 : ((e + 1) * 86400 - 1 - bishkekOffset : Int) <
        ((e + 1) * 86400 - bishkekOffset : Int) := by omega
    exact_mod_cast h3

/-- Witness for the C9 theorem: UTC instant 0 lies in the executed window
for local day 0, hence in the inclusive local-day range. -/
theorem c9_range_conversion_witness :
    inLocalDayRange 0 0 (0 : ℚ) :=
  c9_range_conversion.2 0 0 (0 : ℚ) (by decide)

/-- Key membership as existence of a pair. -/
theorem hasKey_iff {m : List (String × Value)} {k : String} :
    hasKey m k = true ↔ ∃ v, (k, v) ∈ m := by
  unfold hasKey
  rw [List.any_eq_true]
  constructor
  · rintro ⟨⟨k1, v1⟩, hmem, hbeq⟩
    have hk : k1 = k := by simpa using hbeq
    subst hk
    exact ⟨v1, hmem⟩
  · rintro ⟨v, hv⟩
    exact ⟨(k, v), hv, by simp⟩

/-- Pair membership in the filtered argument list. -/
theorem mem_filter_tool_args {name k : String} {v : Value}
    {m : List (String × Value)} :
    (k, v) ∈ filter_tool_args name m ↔
      ((k, v) ∈ m ∧ k ∈ (tools_params.lookup name).getD []) := by
  unfold filter_tool_args
  rw [List.mem_filter]
  simp [List.elem_iff]

/-- Key membership in the filtered argument list. -/
theorem hasKey_filter_tool_args {name k : String} {m : List (String × Value)} :
    hasKey (filter_tool_args name m) k = true ↔
      (hasKey m k = true ∧ k ∈ (tools_params.lookup name).getD []) := by
  simp [hasKey_iff, mem_filter_tool_args, exists_and_right]

/-- Inserting a key makes it present. -/
theorem hasKey_pyDictInsert_self {m : List (String × Value)} {k : String}
    {v : Value} : hasKey (pyDictInsert m k v) k = true := by
  unfold pyDictInsert
  split
  · rename_i hany
    rw [hasKey_iff]
    unfold hasKey at hany
    rw [List.any_eq_true] at hany
    obtain ⟨kv, hmem, hbeq⟩ := hany
    refine ⟨v, List.mem_map.mpr ⟨kv, hmem, ?_⟩⟩
    rw [if_pos hbeq]
  · rw [hasKey_iff]
    exact ⟨v, by simp⟩

/-- Inserting one key does not change the presence of another. -/
theorem hasKey_pyDictInsert_other {m : List (String × Value)} {k k2 : String}
    {v : Value} (hne : k ≠ k2) :
    hasKey (pyDictInsert m k2 v) k = hasKey m k := by
  unfold pyDictInsert
  split
  · unfold hasKey
    rw [List.any_map]
    congr 1
    funext kv
    by_cases hkv : (kv.1 == k2) = true
    · have hk2 : kv.1 = k2 := by simpa using hkv
      simp [Function.comp, hkv, hk2]
    · simp [Function.comp, hkv]
  · unfold hasKey
    rw [List.any_append]
    simp only [List.any_cons, List.any_nil, Bool.or_false]
    rw [show (((k2, v)).1 == k) = false from beq_eq_false_iff_ne.mpr (Ne.symm hne)]
    rw [Bool.or_false]

/-- The customer-id defaulting step leaves the customer-id key present
whenever a user is authenticated. -/
theorem hasKey_injectCid {uid : Int} {m : List (String × Value)} :
    hasKey (injectCid (some uid) m) (r"customer_id") = true := by
  simp only [injectCid]
  split
  · assumption
  · exact hasKey_pyDictInsert_self

/-- The language defaulting step leaves the lang key present. -/
theorem hasKey_injectLang {language : Option String} {dl : String}
    {m : List (String × Value)} :
    hasKey (injectLang language dl m) (r"lang") = true := by
  unfold injectLang
  split
  · assumption
  · exact hasKey_pyDictInsert_self

/-- The language defaulting step does not change the presence of the
customer-id key. -/
theorem hasKey_injectLang_cid {language : Option String} {dl : String}
    {m : List (String × Value)} :
    hasKey (injectLang language dl m) (r"customer_id") = hasKey m (r"customer_id") := by
  unfold injectLang
  split
  · rfl
  · exact hasKey_pyDictInsert_other (by decide)

/-- Defaulting always leaves the customer-id key present when a user is
present. -/
theorem hasKey_injectDefaults_cid {uid : Int} {language : Option String}
    {dl : String} {m : List (String × Value)} :
    hasKey (injectDefaults (some uid) language dl m) (r"customer_id") = true := by
  unfold injectDefaults
  rw [hasKey_injectLang_cid]
  exact hasKey_injectCid

/-- Defaulting always leaves the language key present. -/
theorem hasKey_injectDefaults_lang {userId : Option Int}
    {language : Option String} {dl : String} {m : List (String × Value)} :
    hasKey (injectDefaults userId language dl m) (r"lang") = true := by
  unfold injectDefaults
  exact hasKey_injectLang

/-- An insert with a fresh key is an append. -/
theorem pyDictInsert_of_absent {m : List (String × Value)} {k : String}
    {v : Value} (h : hasKey m k = false) :
    pyDictInsert m k v = m ++ [(k, v)] := by
  unfold pyDictInsert
  rw [h]
  simp

/-- Membership survives the language defaulting step. -/
theorem mem_injectLang_of_mem {language : Option String} {dl : String}
    {m : List (String × Value)} {k : String} {v : Value}
    (h : (k, v) ∈ m) : (k, v) ∈ injectLang language dl m := by
  unfold injectLang
  split
  · exact h
  · rename_i hml
    rw [pyDictInsert_of_absent (by simpa using hml)]
    exact List.mem_append_left _ h

/-- When the parsed arguments lack a customer id, defaulting inserts the
authenticated caller's id. -/
theorem injectDefaults_cid_value {uid : Int} {language : Option String}
    {dl : String} {m : List (String × Value)}
    (h : hasKey m (r"customer_id") = false) :
    ((r"customer_id"), Value.int uid) ∈ injectDefaults (some uid) language dl m := by
  unfold injectDefaults
  apply mem_injectLang_of_mem
  simp only [injectCid]
  rw [h]
  simp only [Bool.false_eq_true, if_false]
  rw [pyDictInsert_of_absent h]
  simp

/-- When the parsed arguments lack a language, defaulting inserts the
request language (or the client default). -/
theorem injectDefaults_lang_value {userId : Option Int}
    {language : Option String} {dl : String} {m : List (String × Value)}
    (h : hasKey m (r"lang") = false) :
    ((r"lang"), Value.str (language.getD dl)) ∈ injectDefaults userId language dl m := by
  unfold injectDefaults
  have hcid : hasKey (injectCid userId m) (r"lang") = false := by
    cases userId with
    | none => simpa only [injectCid] using h
    | some uid =>
      simp only [injectCid]
      split
      · exact h
      · rw [hasKey_pyDictInsert_other (by decide)]
        exact h
  unfold injectLang
  rw [hcid]
  simp only [Bool.false_eq_true, if_false]
  rw [pyDictInsert_of_absent hcid]
  simp

/-- C3: the filter returns exactly the sub-mapping of its input whose keys
appear in the tool's static allow-list (values unchanged); a tool name
absent from the registry yields the empty mapping (every argument
dropped); and the caller's authenticated customer id and the language tag
are injected before filtering when absent, so each reaches the tool
exactly when the tool's allow-list contains the corresponding key. -/
theorem c3_filter_and_injection :
    (∀ (name : String) (m : List (String × Value)) (k : String) (v : Value),
      (k, v) ∈ filter_tool_args name m ↔
        ((k, v) ∈ m ∧ k ∈ (tools_params.lookup name).getD [])) ∧
    (∀ (name : String) (m : List (String × Value)),
      tools_params.lookup name = none → filter_tool_args name m = []) ∧
    (∀ (uid : Int) (language : Option String) (dl : String)
        (m : List (String × Value)) (name : String),
      (hasKey (filter_tool_args name (injectDefaults (some uid) language dl m))
          (r"customer_id") = true ↔
        (r"customer_id") ∈ (tools_params.lookup name).getD []) ∧
      (hasKey (filter_tool_args name (injectDefaults (some uid) language dl m))
          (r"lang") = true ↔
        (r"lang") ∈ (tools_params.lookup name).getD []) ∧
      (hasKey m (r"customer_id") = false →
        (r"customer_id") ∈ (tools_params.lookup name).getD [] →
        ((r"customer_id"), Value.int uid) ∈
          filter_tool_args name (injectDefaults (some uid) language dl m)) ∧
      (hasKey m (r"lang") = false →
        (r"lang") ∈ (tools_params.lookup name).getD [] →
        ((r"lang"), Value.str (language.getD dl)) ∈
          filter_tool_args name (injectDefaults (some uid) language dl m))) := by
  refine ⟨fun name m k v => mem_filter_tool_args, ?_, ?_⟩
  · intro name m hnone
    unfold filter_tool_args
    rw [hnone]
    simp
  · intro uid language dl m name
    refine ⟨?_, ?_, ?_, ?_⟩
    · rw [hasKey_filter_tool_args]
      simp [hasKey_injectDefaults_cid]
    · rw [hasKey_filter_tool_args]
      simp [hasKey_injectDefaults_lang]
    · intro habs hallow
      rw [mem_filter_tool_args]
      exact ⟨injectDefaults_cid_value habs, hallow⟩
    · intro habs hallow
      rw [mem_filter_tool_args]
      exact ⟨injectDefaults_lang_value habs, hallow⟩

/-- Witness for the C3 theorem: an unregistered tool name drops every
argument, and on the registered balance tool the injected customer id and
language survive filtering while the model-supplied secret argument is
dropped. -/
theorem c3_filter_and_injection_witness :
    filter_tool_args (r"frobnicate") [((r"customer_id"), Value.int 1)] = [] ∧
    ((r"customer_id"), Value.int 7) ∈
      filter_tool_args (r"get_balance")
        (injectDefaults (some 7) none (r"ky") [((r"secret"), Value.str (r"x"))]) ∧
    ((r"lang"), Value.str (r"ky")) ∈
      filter_tool_args (r"get_balance")
        (injectDefaults (some 7) none (r"ky") [((r"secret"), Value.str (r"x"))]) :=
  ⟨c3_filter_and_injection.2.1 (r"frobnicate") [((r"customer_id"), Value.int 1)] rfl,
   (c3_filter_and_injection.2.2 7 none (r"ky") [((r"secret"), Value.str (r"x"))]
     (r"get_balance")).2.2.1 rfl (by decide),
   (c3_filter_and_injection.2.2 7 none (r"ky") [((r"secret"), Value.str (r"x"))]
     (r"get_balance")).2.2.2 rfl (by decide)⟩

/-- C5: without any call marker, respond returns the raw aggregated text
untouched (the Python set literal holding it); with at least one marker,
the reply is exactly the newline-joined results of handling each marker in
order of appearance, all surrounding prose discarded; on the two-marker
fixture the extraction yields exactly the two marker bodies and the reply
is the newline-joined tool outputs. -/
theorem c5_assembler :
    (∀ jsonP callTool userId language dl fullText,
      _extract_func_calls fullText = [] →
      respond jsonP callTool userId language dl fullText = .rawSet fullText) ∧
    (∀ jsonP callTool userId language dl fullText,
      _extract_func_calls fullText ≠ [] →
      respond jsonP callTool userId language dl fullText =
        .record
          (String.intercalate nl
            ((_extract_func_calls fullText).map
              (handleFuncCall jsonP callTool userId language dl)))
          (_extract_func_calls fullText)) ∧
    _extract_func_calls (r"plain prose with no markers") = [] ∧
    _extract_func_calls twoMarkerText = [(r"name=get_balance"), (r"name=get_bank_info")] ∧
    respond noJson okCallTool (some 7) none (r"ky") twoMarkerText =
      .record ((r"R:get_balance") ++ nl ++ (r"R:get_bank_info"))
        [(r"name=get_balance"), (r"name=get_bank_info")] := by
  refine ⟨?_, ?_, rfl, rfl, rfl⟩
  · intro jsonP callTool userId language dl fullText h
    unfold respond
    rw [h]
    rfl
  · intro jsonP callTool userId language dl fullText h
    unfold respond
    have hne : (_extract_func_calls fullText).isEmpty = false := by
      simpa [List.isEmpty_iff] using h
    have hmapne : ((_extract_func_calls fullText).map
        (handleFuncCall jsonP callTool userId language dl)).isEmpty = false := by
      simpa [List.isEmpty_iff, List.map_eq_nil_iff] using h
    simp only [hne, hmapne, Bool.false_eq_true, if_false]
    rfl

/-- Witness for the C5 theorem: the no-marker branch applied to a plain
text, and the marker branch applied to the two-marker fixture. -/
theorem c5_assembler_witness :
    respond noJson okCallTool (some 7) none (r"ky") (r"plain prose with no markers") =
      .rawSet (r"plain prose with no markers") ∧
    respond noJson okCallTool (some 7) none (r"ky") twoMarkerText =
      .record
        (String.intercalate nl
          ((_extract_func_calls twoMarkerText).map
            (handleFuncCall noJson okCallTool (some 7) none (r"ky"))))
        (_extract_func_calls twoMarkerText) :=
  ⟨c5_assembler.1 noJson okCallTool (some 7) none (r"ky")
     (r"plain prose with no markers") rfl,
   c5_assembler.2.1 noJson okCallTool (some 7) none (r"ky") twoMarkerText
     (by decide)⟩

/-- C6: value coercion applies in priority order with first match winning —
case-insensitive true/false to boolean, then null/none to null, then a
signed integer literal to integer, then a signed decimal literal to an
exact decimal number, then a brace/bracket-delimited string to the JSON
oracle's parse falling back to the original string, and all other input to
the stripped string — with one layer of surrounding matching quotes removed
before coercion; and the two documented round trips hold (the parsed
amount value mkRat 301 2 is 150.5). -/
theorem c6_coercion_and_roundtrip :
    (∀ jsonP, _parse_func_call jsonP (r"name=get_balance, customer_id=7, lang=ky") =
      .ok ((r"get_balance"),
        [((r"customer_id"), Value.int 7), ((r"lang"), Value.str (r"ky"))])) ∧
    (∀ jsonP, _parse_func_call jsonP
        (r"name=transfer_money, to_name=Aigerim Sadykova, amount=150.5, currency=USD") =
      .ok ((r"transfer_money"),
        [((r"to_name"), Value.str (r"Aigerim Sadykova")),
         ((r"amount"), Value.float (mkRat 1505 10)),
         ((r"currency"), Value.str (r"USD"))])) ∧
    (mkRat 1505 10 : ℚ) = 301 / 2 ∧
    (∀ jsonP, _coerce_value jsonP (r"TRUE") = Value.bool true) ∧
    (∀ jsonP, _coerce_value jsonP (r"False") = Value.bool false) ∧
    (∀ jsonP, _coerce_value jsonP (r"None") = Value.null) ∧
    (∀ jsonP, _coerce_value jsonP (r"null") = Value.null) ∧
    (∀ jsonP, _coerce_value jsonP (r"+42") = Value.int 42) ∧
    (∀ jsonP, _coerce_value jsonP (r"-3.25") = Value.float (-(mkRat 325 100))) ∧
    (-(mkRat 325 100) : ℚ) = -(13 / 4) ∧
    _coerce_value noJson (r"{bad}") = Value.str (r"{bad}") ∧
    _coerce_value (fun s => some (Value.str ((r"J:") ++ s))) (r"[1, 2]") =
      Value.str (r"J:[1, 2]") ∧
    (∀ jsonP, _parse_func_call jsonP (r"name=t, x='  quoted text '") =
      .ok ((r"t"), [((r"x"), Value.str (r"quoted text"))])) := by
  refine ⟨fun _ => rfl, fun _ => rfl, by norm_num [Rat.mkRat_eq_div],
    fun _ => rfl, fun _ => rfl, fun _ => rfl, fun _ => rfl, fun _ => rfl,
    fun _ => rfl, by norm_num [Rat.mkRat_eq_div], rfl, rfl, fun _ => rfl⟩

/-- C7: each marker's result is computed independently — the result list is
the elementwise image of the marker list, preserving length and order; a
parse failure or a handler-level error on one marker is rendered as the
inline error string tagged with the offending call text and the failure
reason; a successful call contributes the tool output; and on the fixture
whose first marker is malformed the reply still carries the second
marker's output after the inline error. -/
theorem c7_error_isolation :
    (∀ jsonP callTool userId language dl (fcs : List String),
      (fcs.map (handleFuncCall jsonP callTool userId language dl)).length = fcs.length) ∧
    (∀ jsonP callTool userId language dl (fcs : List String) i, i < fcs.length →
      (fcs.map (handleFuncCall jsonP callTool userId language dl))[i]? =
        (fcs[i]?).map (handleFuncCall jsonP callTool userId language dl)) ∧
    (∀ jsonP callTool userId language dl fc e,
      _parse_func_call jsonP fc = .error e →
      handleFuncCall jsonP callTool userId language dl fc = errTag fc e) ∧
    (∀ jsonP callTool userId language dl fc name kwargs e,
      _parse_func_call jsonP fc = .ok (name, kwargs) →
      callTool name (filter_tool_args name (injectDefaults userId language dl kwargs)) = .error e →
      handleFuncCall jsonP callTool userId language dl fc = errTag fc e) ∧
    (∀ jsonP callTool userId language dl fc name kwargs out,
      _parse_func_call jsonP fc = .ok (name, kwargs) →
      callTool name (filter_tool_args name (injectDefaults userId language dl kwargs)) = .ok out →
      handleFuncCall jsonP callTool userId language dl fc = out) ∧
    respond noJson okCallTool (some 7) none (r"ky") mixedText =
      .record ((r"[ERROR calling oops: Bad func_call format: oops]") ++ nl ++ (r"R:get_bank_info"))
        [(r"oops"), (r"name=get_bank_info")] := by
  refine ⟨fun _ _ _ _ _ fcs => List.length_map .., ?_, ?_, ?_, ?_, rfl⟩
  · intro jsonP callTool userId language dl fcs i hi
    rw [List.getElem?_map]
  · intro jsonP callTool userId language dl fc e hparse
    unfold handleFuncCall
    rw [hparse]
  · intro jsonP callTool userId language dl fc name kwargs e hparse hcall
    unfold handleFuncCall
    simp only [hparse, hcall]
  · intro jsonP callTool userId language dl fc name kwargs out hparse hcall
    unfold handleFuncCall
    simp only [hparse, hcall]

/-- Witness for the C7 theorem: the malformed fixture marker renders the
tagged parse error, the well-formed marker still yields its tool output,
and the result list pairs off with the marker list by index. -/
theorem c7_error_isolation_witness :
    handleFuncCall noJson okCallTool (some 7) none (r"ky") (r"oops") =
      errTag (r"oops") (r"Bad func_call format: oops") ∧
    handleFuncCall noJson okCallTool (some 7) none (r"ky") (r"name=get_bank_info") =
      (r"R:get_bank_info") ∧
    ([(r"oops"), (r"name=get_bank_info")].map
        (handleFuncCall noJson okCallTool (some 7) none (r"ky")))[1]? =
      (([(r"oops"), (r"name=get_bank_info")] : List String)[1]?).map
        (handleFuncCall noJson okCallTool (some 7) none (r"ky")) :=
  ⟨c7_error_isolation.2.2.1 noJson okCallTool (some 7) none (r"ky") (r"oops")
     (r"Bad func_call format: oops") rfl,
   c7_error_isolation.2.2.2.2.1 noJson okCallTool (some 7) none (r"ky")
     (r"name=get_bank_info") (r"get_bank_info") [] (r"R:get_bank_info") rfl rfl,
   c7_error_isolation.2.1 noJson okCallTool (some 7) none (r"ky")
     [(r"oops"), (r"name=get_bank_info")] 1 (by decide)⟩

end BankAssistant
